import Mathlib

/-!
Shallow embedding of `src/src/NoteParser.ts` (vscode-markdown-notes):
reference-candidate tokenization, the per-file parse cache, and tag /
wiki-link search.  TypeScript strings become Lean `String`s, fields that can
be `undefined` become `Option`, promises become result values (`Except` /
`Option`), and in-place mutation becomes explicit state passing: every
operation returns the updated object.  The regular expressions and the
note-name fuzzy-match predicate live in `NoteWorkspace.ts`, which the spec
treats as external configuration; they are parameters here.
-/

/-- Modelled from the spec: the kind enumeration lives in `ContextWord.ts`,
which is not among the sources.  §3 gives the kinds Tag and WikiLink, and §7
("Unsupported query kind") requires at least one further kind, the Null
placeholder.  As a TypeScript numeric enum declared Null-first, Null is the
zero (falsy) member while WikiLink and Tag are nonzero (truthy). -/
inductive ContextWordType
  | Null
  | WikiLink
  | Tag
deriving DecidableEq

/-- TypeScript truthiness of an enum member: falsy exactly for the zero
member, which is the Null placeholder. -/
def ContextWordType.truthy : ContextWordType → Bool
  | ContextWordType.Null => false
  | _ => true

/-- RawPosition from NoteParser.ts: zero-based line and character. -/
structure RawPosition where
  line : Nat
  character : Nat
deriving DecidableEq

/-- RawRange from NoteParser.ts: start and end positions. -/
structure RawRange where
  start : RawPosition
  «end» : RawPosition
deriving DecidableEq

/-- Modelled from the spec (§3): the query shape consumed by the core.
`range` is irrelevant to matching and `hasExtension` is only set by the
backlink entry point, but both are carried for fidelity to the shape. -/
structure ContextWord where
  type : ContextWordType
  word : String
  hasExtension : Bool
  range : Option RawRange
deriving DecidableEq

/-- RefCandidate: one textual occurrence of a potential tag or wiki-link. -/
structure RefCandidate where
  rawText : String
  range : RawRange
  contextWordType : ContextWordType
deriving DecidableEq

/-- RefCandidate.fromMatch: a regex match is (index, matched text); the
resulting range spans the matched text on the given line.  (The source's
`match.index || 0` default only fires when the index is undefined; a match
always carries its index here.) -/
def RefCandidate.fromMatch (lineNum : Nat) (m : Nat × String)
    (cwType : ContextWordType) : RefCandidate :=
  { rawText := m.2,
    range :=
      { start := { line := lineNum, character := m.1 },
        «end» := { line := lineNum, character := m.1 + m.2.length } },
    contextWordType := cwType }

/-- RefCandidate.matchesContextWord.  The note-name fuzzy equality used for
WikiLink candidates (`NoteWorkspace.noteNamesFuzzyMatch`) is external
configuration, passed as the `fuzzy` parameter. -/
def RefCandidate.matchesContextWord (fuzzy : String → String → Bool)
    (c : RefCandidate) (contextWord : ContextWord) : Bool :=
  if contextWord.type ≠ c.contextWordType then false
  else if contextWord.type = ContextWordType.Tag then
    c.rawText == "#" ++ contextWord.word
  else if contextWord.type = ContextWordType.WikiLink then
    fuzzy c.rawText contextWord.word
  else false

/-- Splitting a character list at each newline, dropping one carriage return
immediately before the newline when present: the behaviour of the source's
split on the regular expression matching an optional carriage return
followed by a newline.  `acc` holds the current piece reversed. -/
def splitLinesAux : List Char → List Char → List String
  | [], acc => [String.mk acc.reverse]
  | ch :: rest, acc =>
    if ch = '\n' then
      (match acc with
        | '\r' :: acc' => String.mk acc'.reverse
        | _ => String.mk acc.reverse) :: splitLinesAux rest []
    else splitLinesAux rest (ch :: acc)

/-- Model of `this.data.split(...)` on newline or carriage-return-newline. -/
def splitLines (s : String) : List String :=
  splitLinesAux s.data []

/-- ParsedFile: caches the result of reading and parsing one document.
`data = none` models the TypeScript `undefined` (never loaded). -/
structure ParsedFile where
  fsPath : String
  data : Option String := none
  refCandidates : List RefCandidate := []
  _parsed : Bool := false
deriving DecidableEq

/-- JavaScript truthiness of `this.data`: `undefined` and the empty string
are both falsy. -/
def dataTruthy : Option String → Bool
  | none => false
  | some s => s != ""

/-- ParsedFile.readFile.  The file system is a parameter mapping a path to
its contents (`none` = I/O error).  A resolved promise is `Except.ok`, a
rejected one `Except.error`; both carry the state of the instance after the
call.  The source resets `_parsed` to false before initiating a real read. -/
def ParsedFile.readFile (fs : String → Option String) (useCache : Bool)
    (pf : ParsedFile) : Except ParsedFile ParsedFile :=
  if useCache && dataTruthy pf.data then Except.ok pf
  else
    let pf1 := { pf with _parsed := false }
    match fs pf.fsPath with
    | none => Except.error pf1
    | some buffer => Except.ok { pf1 with data := some buffer }

/-- A line matcher: all matches of a pattern on one line, in left-to-right
order, each as (index, matched text).  Models the externally configured
`NoteWorkspace.rxTagNoAnchors()` / `NoteWorkspace.rxWikiLink()` patterns. -/
abbrev LineMatcher := String → List (Nat × String)

/-- ParsedFile.parseData: guards for blank data, absent data and the cache
hit, then per line pushes all tag matches followed by all wiki-link matches
and sets the parsed flag. -/
def ParsedFile.parseData (tagMatcher wikiMatcher : LineMatcher)
    (useCache : Bool) (pf : ParsedFile) : ParsedFile :=
  if pf.data = some "" then pf
  else
    match pf.data with
    | none => pf
    | some d =>
      if useCache && pf._parsed then pf
      else
        { pf with
          refCandidates :=
            (splitLines d).enum.flatMap (fun p =>
              (tagMatcher p.2).map
                (fun m => RefCandidate.fromMatch p.1 m ContextWordType.Tag)
              ++ (wikiMatcher p.2).map
                (fun m => RefCandidate.fromMatch p.1 m ContextWordType.WikiLink)),
          _parsed := true }

/-- ParsedFile.fromData: the test constructor that parses given data without
touching the file system. -/
def ParsedFile.fromData (tagMatcher wikiMatcher : LineMatcher)
    (data : String) : ParsedFile :=
  ParsedFile.parseData tagMatcher wikiMatcher false
    { fsPath := "NO_PATH", data := some data }

/-- ParsedFile._rawRangesForWord: blank data, absent data, an absent context
word and an unsupported kind all yield the empty list; otherwise the ranges
of the matching candidates in candidate order.  (`this.refCandidates` is
always an array in the source and never falsy, so its guard cannot fire.) -/
def ParsedFile._rawRangesForWord (fuzzy : String → String → Bool)
    (pf : ParsedFile) (contextWord : Option ContextWord) : List RawRange :=
  if pf.data = some "" then []
  else if pf.data = none then []
  else
    match contextWord with
    | none => []
    | some cw =>
      if cw.type = ContextWordType.Tag ∨ cw.type = ContextWordType.WikiLink then
        (pf.refCandidates.filter
          (fun c => c.matchesContextWord fuzzy cw)).map RefCandidate.range
      else []

/-- Insertion-ordered deduplication: the model of a JavaScript Set built by
successive adds and then iterated. -/
def dedupKeepFirst (l : List String) : List String :=
  l.foldl (fun acc x => if x ∈ acc then acc else acc ++ [x]) []

/-- ParsedFile.tagSet: the raw texts of the Tag-kind candidates, as the
insertion-ordered deduplicated list a JavaScript Set iterates in. -/
def ParsedFile.tagSet (pf : ParsedFile) : List String :=
  dedupKeepFirst
    ((pf.refCandidates.filter
      (fun rc => rc.contextWordType == ContextWordType.Tag)).map
      RefCandidate.rawText)

/-- Model of vscode.Location: a file identity plus a range. -/
structure Location where
  fsPath : String
  range : RawRange
deriving DecidableEq

/-- NoteParser._parsedFiles: the mapping of fsPaths to ParsedFile objects,
as an association list in insertion order. -/
abbrev Cache := List (String × ParsedFile)

/-- Lookup in the parsed-files table. -/
def cacheLookup : Cache → String → Option ParsedFile
  | [], _ => none
  | (k, v) :: rest, key => if k = key then some v else cacheLookup rest key

/-- Insert-or-replace in the parsed-files table. -/
def cacheInsert : Cache → String → ParsedFile → Cache
  | [], key, pf => [(key, pf)]
  | (k, v) :: rest, key, pf =>
    if k = key then (key, pf) :: rest else (k, v) :: cacheInsert rest key pf

/-- NoteParser.parsedFileFor: get-or-create, always (re)registering the
entry in the table. -/
def NoteParser.parsedFileFor (cache : Cache) (fsPath : String) :
    ParsedFile × Cache :=
  let pf := match cacheLookup cache fsPath with
    | some pf => pf
    | none => { fsPath := fsPath }
  (pf, cacheInsert cache fsPath pf)

/-- NoteParser.parsedFilesForWorkspace: map each workspace path to its cache
entry, read every file (Promise.all: one rejection rejects the aggregate,
modelled as `none`), then parse each with the same cache flag.  In the
source the table holds the very objects that were read and parsed, so the
updated files are written back here. -/
def NoteParser.parsedFilesForWorkspace (tagMatcher wikiMatcher : LineMatcher)
    (fs : String → Option String) (useCache : Bool) (cache : Cache)
    (paths : List String) : Option (List ParsedFile × Cache) :=
  let got := paths.foldl
    (fun (acc : List ParsedFile × Cache) p =>
      let r := NoteParser.parsedFileFor acc.2 p
      (acc.1 ++ [r.1], r.2))
    ([], cache)
  match got.1.mapM (fun pf =>
      match ParsedFile.readFile fs useCache pf with
      | Except.ok x => some x
      | Except.error _ => none) with
  | none => none
  | some readFiles =>
    let parsed := readFiles.map
      (ParsedFile.parseData tagMatcher wikiMatcher useCache)
    some (parsed, parsed.foldl (fun c pf => cacheInsert c pf.fsPath pf) got.2)

/-- Location aggregation loop of NoteParser.search: for each parsed file in
workspace order, one Location per matching range in candidate order. -/
def NoteParser.searchLocations (fuzzy : String → String → Bool)
    (pfs : List ParsedFile) (cw : ContextWord) : List Location :=
  pfs.flatMap (fun pf =>
    (pf._rawRangesForWord fuzzy (some cw)).map
      (fun r => { fsPath := pf.fsPath, range := r }))

/-- NoteParser.search.  The condition of the second branch of the source's
if chain is the ASSIGNMENT `contextWord.type = ContextWordType.WikiLink`,
not a comparison: evaluating it overwrites the caller's kind field and
yields the (truthy) WikiLink member, so every non-Tag query proceeds as a
WikiLink query and the final branch returning the empty list is dead code.
The first result component is the resolved location list (`none` = rejected
promise); the second is the context word as left after the call, modelling
the mutation of the caller's object.  (The local `query` string is computed
in the source but never read afterwards, and is omitted.) -/
def NoteParser.search (fuzzy : String → String → Bool)
    (tagMatcher wikiMatcher : LineMatcher) (fs : String → Option String)
    (cache : Cache) (paths : List String) (cw : ContextWord) :
    Option (List Location) × ContextWord :=
  if cw.type = ContextWordType.Tag then
    match NoteParser.parsedFilesForWorkspace tagMatcher wikiMatcher fs true
        cache paths with
    | none => (none, cw)
    | some pr => (some (NoteParser.searchLocations fuzzy pr.1 cw), cw)
  else
    let cw' := { cw with type := ContextWordType.WikiLink }
    if ContextWordType.truthy ContextWordType.WikiLink then
      match NoteParser.parsedFilesForWorkspace tagMatcher wikiMatcher fs true
          cache paths with
      | none => (none, cw')
      | some pr => (some (NoteParser.searchLocations fuzzy pr.1 cw'), cw')
    else (some [], cw')

/-- NoteParser.distinctTags: load the workspace with the cache, concatenate
every file's tagSet and deduplicate (Array.from of a Set). -/
def NoteParser.distinctTags (tagMatcher wikiMatcher : LineMatcher)
    (fs : String → Option String) (cache : Cache) (paths : List String) :
    Option (List String) :=
  (NoteParser.parsedFilesForWorkspace tagMatcher wikiMatcher fs true cache
    paths).map
    (fun pr => dedupKeepFirst (pr.1.flatMap ParsedFile.tagSet))

/-- A concrete tag matcher for the lines used in the concrete instances
below; an admissible configuration per §6. -/
def tagM0 : LineMatcher := fun line =>
  if line = "#a #a #b" then [(0, "#a"), (3, "#a"), (6, "#b")]
  else if line = "#b #c" then [(0, "#b"), (3, "#c")]
  else if line = "#a" then [(0, "#a")]
  else if line = "x #a" then [(2, "#a")]
  else []

/-- A concrete wiki-link matcher for the concrete instances below. -/
def wikiM0 : LineMatcher := fun line =>
  if line = "[[target]]" then [(0, "[[target]]")] else []

/-- A concrete note-name fuzzy match: the raw text equals the word wrapped
in double brackets. -/
def fuzzy0 : String → String → Bool := fun raw w => raw == "[[" ++ w ++ "]]"

/-- Folding the Set-insert step preserves freedom from duplicates. -/
theorem dedupFold_nodup (l : List String) :
    ∀ acc : List String, acc.Nodup →
      (l.foldl (fun acc x => if x ∈ acc then acc else acc ++ [x]) acc).Nodup := by
  induction l with
  | nil => intro acc h; exact h
  | cons a l ih =>
    intro acc h
    simp only [List.foldl_cons]
    by_cases ha : a ∈ acc
    · rw [if_pos ha]; exact ih acc h
    · rw [if_neg ha]
      refine ih _ ?_
      simp [List.nodup_append, h, ha]

/-- Membership after folding the Set-insert step: an element is present iff
it was in the accumulator or in the input. -/
theorem dedupFold_mem (l : List String) :
    ∀ (acc : List String) (x : String),
      x ∈ l.foldl (fun acc y => if y ∈ acc then acc else acc ++ [y]) acc ↔
        x ∈ acc ∨ x ∈ l := by
  induction l with
  | nil => intro acc x; simp
  | cons a l ih =>
    intro acc x
    simp only [List.foldl_cons]
    by_cases ha : a ∈ acc
    · rw [if_pos ha, ih, List.mem_cons]
      constructor
      · rintro (h | h)
        · exact Or.inl h
        · exact Or.inr (Or.inr h)
      · rintro (h | rfl | h)
        · exact Or.inl h
        · exact Or.inl ha
        · exact Or.inr h
    · rw [if_neg ha, ih]
      simp [List.mem_append, List.mem_cons, or_assoc]

/-- dedupKeepFirst produces a duplicate-free list. -/
theorem dedupKeepFirst_nodup (l : List String) : (dedupKeepFirst l).Nodup :=
  dedupFold_nodup l [] List.nodup_nil

/-- dedupKeepFirst preserves membership. -/
theorem mem_dedupKeepFirst (l : List String) (x : String) :
    x ∈ dedupKeepFirst l ↔ x ∈ l := by
  unfold dedupKeepFirst
  rw [dedupFold_mem]
  simp

/-- Characterization of tagSet membership: exactly the raw texts of the
stored Tag-kind candidates. -/
theorem tagSet_mem_iff (pf : ParsedFile) (t : String) :
    t ∈ pf.tagSet ↔
      ∃ c, c ∈ pf.refCandidates ∧ c.contextWordType = ContextWordType.Tag ∧
        c.rawText = t := by
  unfold ParsedFile.tagSet
  rw [mem_dedupKeepFirst]
  simp only [List.mem_map, List.mem_filter, beq_iff_eq]
  constructor
  · rintro ⟨c, ⟨hc, hk⟩, hr⟩
    exact ⟨c, hc, hk, hr⟩
  · rintro ⟨c, hc, hk, hr⟩
    exact ⟨c, ⟨hc, hk⟩, hr⟩

/-- The Null-kind query of the concrete instance below. -/
def cwNull : ContextWord :=
  { type := ContextWordType.Null, word := "target", hasExtension := false,
    range := none }

/-- A one-file workspace whose note contains a single wiki link. -/
def fsTarget : String → Option String := fun p =>
  if p = "n.md" then some "[[target]]" else none

/-- Claim C1 (code bug): the spec requires a query whose kind is neither Tag
nor WikiLink to return the empty list without proceeding, but the source's
else-if condition is an assignment, so a Null-kind query is rewritten to a
WikiLink query and returns that file's wiki-link matches: here one location
instead of the required empty list. -/
theorem c1_search_nullKind_proceeds :
    NoteParser.search fuzzy0 tagM0 wikiM0 fsTarget [] ["n.md"] cwNull
      = (some [{ fsPath := "n.md",
                 range := { start := { line := 0, character := 0 },
                            «end» := { line := 0, character := 10 } } }],
         { cwNull with type := ContextWordType.WikiLink }) := by
  decide

instance {ε α : Type} [DecidableEq ε] [DecidableEq α] :
    DecidableEq (Except ε α) := fun a b =>
  match a, b with
  | Except.ok x, Except.ok y => decidable_of_iff (x = y) (by simp)
  | Except.ok _, Except.error _ => isFalse (by simp)
  | Except.error _, Except.ok _ => isFalse (by simp)
  | Except.error x, Except.error y => decidable_of_iff (x = y) (by simp)

/-- A document parsed from the one-line content consisting of one tag. -/
def pfA : ParsedFile := ParsedFile.fromData tagM0 wikiM0 "#a"

/-- The same document after a re-read returned empty content. -/
def pfAEmptied : ParsedFile := { pfA with data := some "", _parsed := false }

/-- Claim C2 (counterexample): a document parsed from a tag line and then
re-loaded with empty content keeps its earlier candidate, tokenize on it is
a no-op that does not clear the list, and its tag set still reports exactly
the old tag — so the re-loaded document does not report zero candidates and
its tag query is not empty — even though the location query for that very
tag does yield zero results, which is the only zero the code delivers. -/
theorem c2_reloaded_empty_keeps_candidates :
    ParsedFile.readFile (fun _ => some "") false pfA = Except.ok pfAEmptied
    ∧ ParsedFile.parseData tagM0 wikiM0 true pfAEmptied = pfAEmptied
    ∧ pfAEmptied.refCandidates ≠ []
    ∧ pfAEmptied.tagSet = ["#a"]
    ∧ pfAEmptied._rawRangesForWord fuzzy0
        (some { type := ContextWordType.Tag, word := "a",
                hasExtension := false, range := none }) = [] := by
  decide

/-- Claim C2 (amended): for a document whose data is exactly the empty
string, tokenize returns without error and without touching the candidate
list (so a document whose candidates were already empty reports zero
candidates and zero tags), and every location query yields zero results;
candidates surviving from earlier content are, however, not cleared. -/
theorem c2_empty_data (tagMatcher wikiMatcher : LineMatcher)
    (fuzzy : String → String → Bool) (useCache : Bool) (pf : ParsedFile)
    (cw : Option ContextWord) (h : pf.data = some "") :
    ParsedFile.parseData tagMatcher wikiMatcher useCache pf = pf
    ∧ pf._rawRangesForWord fuzzy cw = []
    ∧ (pf.refCandidates = [] → pf.tagSet = []) := by
  refine ⟨?_, ?_, ?_⟩
  · unfold ParsedFile.parseData
    rw [if_pos h]
  · unfold ParsedFile._rawRangesForWord
    rw [if_pos h]
  · intro h2
    simp [ParsedFile.tagSet, h2, dedupKeepFirst]

/-- A freshly loaded document whose file was empty. -/
def pfFresh : ParsedFile := { fsPath := "e.md", data := some "" }

/-- Witness for the amended C2 at a concrete empty document. -/
theorem c2_empty_data_witness :
    ParsedFile.parseData tagM0 wikiM0 true pfFresh = pfFresh
    ∧ pfFresh._rawRangesForWord fuzzy0 none = []
    ∧ (pfFresh.refCandidates = [] → pfFresh.tagSet = []) :=
  c2_empty_data tagM0 wikiM0 fuzzy0 true pfFresh none rfl

/-- A document whose stored content is the empty string. -/
def pfBlank : ParsedFile :=
  { fsPath := "a.md", data := some "", refCandidates := [], _parsed := true }

/-- Claim C3 (counterexample): with content set to the empty string — which
is falsy in JavaScript — load with useCache does not short-circuit: it
re-reads the file and resets the parsed flag, changing the document's
state. -/
theorem c3_empty_not_cached :
    ParsedFile.readFile (fun _ => some "fresh") true pfBlank
      = Except.ok { pfBlank with data := some "fresh", _parsed := false }
    ∧ ({ pfBlank with data := some "fresh", _parsed := false } : ParsedFile)
        ≠ pfBlank := by
  decide

/-- Claim C3 (amended): for every document whose content is present and
non-empty, load with useCache resolves immediately with the current
instance, reads nothing (the file system is arbitrary) and changes no
state; empty-string content, being falsy, is re-read like a never-loaded
document. -/
theorem c3_cache_hit (fs : String → Option String) (pf : ParsedFile)
    (s : String) (h1 : pf.data = some s) (h2 : s ≠ "") :
    ParsedFile.readFile fs true pf = Except.ok pf := by
  have ht : dataTruthy pf.data = true := by
    rw [h1]
    simpa [dataTruthy] using h2
  unfold ParsedFile.readFile
  rw [ht]
  simp

/-- Witness for the amended C3: a parsed document with non-empty content is
returned unchanged even over a file system that would fail every read. -/
theorem c3_cache_hit_witness :
    ParsedFile.readFile (fun _ => none) true pfA = Except.ok pfA :=
  c3_cache_hit (fun _ => none) pfA "#a" (by decide) (by decide)

/-- Claim C4: a Tag query leaves the context word unchanged; any other
query has its kind field overwritten with WikiLink — the caller's object is
mutated — and then proceeds exactly as the corresponding WikiLink query. -/
theorem c4_search_mutates_kind (fuzzy : String → String → Bool)
    (tagMatcher wikiMatcher : LineMatcher) (fs : String → Option String)
    (cache : Cache) (paths : List String) (cw : ContextWord) :
    (cw.type = ContextWordType.Tag →
      (NoteParser.search fuzzy tagMatcher wikiMatcher fs cache paths cw).2 = cw)
    ∧ (cw.type ≠ ContextWordType.Tag →
      (NoteParser.search fuzzy tagMatcher wikiMatcher fs cache paths cw).2
          = { cw with type := ContextWordType.WikiLink }
      ∧ (NoteParser.search fuzzy tagMatcher wikiMatcher fs cache paths cw).1
          = (NoteParser.search fuzzy tagMatcher wikiMatcher fs cache paths
              { cw with type := ContextWordType.WikiLink }).1) := by
  constructor
  · intro h
    unfold NoteParser.search
    rw [if_pos h]
    cases hp : NoteParser.parsedFilesForWorkspace tagMatcher wikiMatcher fs
        true cache paths <;> rfl
  · intro h
    unfold NoteParser.search
    rw [if_neg h]
    have h2 : ¬ ({ cw with type := ContextWordType.WikiLink } : ContextWord).type
        = ContextWordType.Tag := by
      intro hx
      exact ContextWordType.noConfusion hx
    rw [if_neg h2]
    cases hp : NoteParser.parsedFilesForWorkspace tagMatcher wikiMatcher fs
        true cache paths <;> exact ⟨rfl, rfl⟩

/-- Witness for C4: the concrete Null-kind query comes back with its kind
field rewritten to WikiLink. -/
theorem c4_witness :
    (NoteParser.search fuzzy0 tagM0 wikiM0 fsTarget [] ["n.md"] cwNull).2
      = { cwNull with type := ContextWordType.WikiLink } :=
  ((c4_search_mutates_kind fuzzy0 tagM0 wikiM0 fsTarget [] ["n.md"]
    cwNull).2 (by decide)).1

/-- Claim C5: matchesContextWord returns false on any kind mismatch, and for
a Tag query returns true exactly when the candidate is of Tag kind and its
raw text is the hash sign followed by the query's bare word, under exact
case-sensitive string equality. -/
theorem c5_matches_tag (fuzzy : String → String → Bool)
    (c : RefCandidate) (cw : ContextWord) :
    (cw.type ≠ c.contextWordType →
      c.matchesContextWord fuzzy cw = false)
    ∧ (cw.type = ContextWordType.Tag →
        (c.matchesContextWord fuzzy cw = true ↔
          c.contextWordType = ContextWordType.Tag ∧
            c.rawText = "#" ++ cw.word)) := by
  constructor
  · intro h
    unfold RefCandidate.matchesContextWord
    rw [if_pos h]
  · intro ht
    by_cases hk : cw.type = c.contextWordType
    · unfold RefCandidate.matchesContextWord
      rw [if_neg (by simpa using hk), if_pos ht]
      rw [beq_iff_eq]
      constructor
      · intro hr
        exact ⟨hk ▸ ht, hr⟩
      · intro hr
        exact hr.2
    · unfold RefCandidate.matchesContextWord
      rw [if_pos hk]
      constructor
      · intro hfalse
        exact absurd hfalse (by simp)
      · rintro ⟨h1, _⟩
        exact absurd (ht.trans h1.symm) hk

/-- The Tag candidate of the concrete witness below. -/
def candTagA : RefCandidate :=
  { rawText := "#a",
    range := { start := { line := 0, character := 0 },
               «end» := { line := 0, character := 2 } },
    contextWordType := ContextWordType.Tag }

/-- The Tag query of the concrete witness below. -/
def cwTagA : ContextWord :=
  { type := ContextWordType.Tag, word := "a", hasExtension := false,
    range := none }

/-- Witness for C5: a Tag candidate reading hash-a matches the Tag query for
the bare word a. -/
theorem c5_matches_tag_witness :
    candTagA.matchesContextWord fuzzy0 cwTagA = true :=
  ((c5_matches_tag fuzzy0 candTagA cwTagA).2 rfl).mpr ⟨rfl, by decide⟩

/-- Claim C6: on a present non-empty document, whenever tokenization is not
skipped as a cache hit, parseData replaces the candidate list with, per line
of the newline / carriage-return-newline split in order, the tag-pattern
matches in matcher order followed by the wiki-link-pattern matches in
matcher order — two independent passes, never interleaved by position — and
sets the parsed flag true. -/
theorem c6_tokenize_order (tagMatcher wikiMatcher : LineMatcher)
    (useCache : Bool) (pf : ParsedFile) (d : String)
    (h1 : pf.data = some d) (h2 : d ≠ "")
    (h3 : useCache = false ∨ pf._parsed = false) :
    ParsedFile.parseData tagMatcher wikiMatcher useCache pf
      = { pf with
          refCandidates :=
            (splitLines d).enum.flatMap (fun p =>
              (tagMatcher p.2).map
                (fun m => RefCandidate.fromMatch p.1 m ContextWordType.Tag)
              ++ (wikiMatcher p.2).map
                (fun m => RefCandidate.fromMatch p.1 m ContextWordType.WikiLink)),
          _parsed := true } := by
  have hne : ¬ pf.data = some "" := by
    rw [h1]
    simp [h2]
  have hcc : (useCache && pf._parsed) = false := by
    rcases h3 with h | h <;> simp [h]
  unfold ParsedFile.parseData
  rw [if_neg hne]
  rw [show pf.data = some d from h1]
  rw [hcc]
  simp

/-- A two-line document: a tag on the first line, a wiki link on the
second. -/
def pfTwoLines : ParsedFile :=
  { fsPath := "d.md", data := some "x #a\n[[target]]" }

/-- Witness for C6 at a concrete two-line document. -/
theorem c6_tokenize_order_witness :
    ParsedFile.parseData tagM0 wikiM0 false pfTwoLines
      = { pfTwoLines with
          refCandidates :=
            (splitLines "x #a\n[[target]]").enum.flatMap (fun p =>
              (tagM0 p.2).map
                (fun m => RefCandidate.fromMatch p.1 m ContextWordType.Tag)
              ++ (wikiM0 p.2).map
                (fun m => RefCandidate.fromMatch p.1 m ContextWordType.WikiLink)),
          _parsed := true } :=
  c6_tokenize_order tagM0 wikiM0 false pfTwoLines "x #a\n[[target]]" rfl
    (by decide) (Or.inl rfl)

/-- Claim C7: when the underlying read fails, readFile rejects, and in the
rejected state the content and the candidate list are unchanged from before
the call while the parsed flag is false. -/
theorem c7_read_failure (fs : String → Option String) (useCache : Bool)
    (pf pf' : ParsedFile)
    (h : ParsedFile.readFile fs useCache pf = Except.error pf') :
    pf'.data = pf.data ∧ pf'.refCandidates = pf.refCandidates ∧
      pf'._parsed = false := by
  unfold ParsedFile.readFile at h
  split at h
  · exact absurd h (by simp)
  · cases hfs : fs pf.fsPath with
    | none =>
      rw [hfs] at h
      have : ({ pf with _parsed := false } : ParsedFile) = pf' := by
        simpa using h
      rw [← this]
      exact ⟨rfl, rfl, rfl⟩
    | some buffer =>
      rw [hfs] at h
      exact absurd h (by simp)

/-- Witness for C7: a failing file system leaves a parsed document's data
and candidates intact and clears the parsed flag. -/
theorem c7_read_failure_witness :
    ({ pfA with _parsed := false } : ParsedFile).data = pfA.data
    ∧ ({ pfA with _parsed := false } : ParsedFile).refCandidates
        = pfA.refCandidates
    ∧ ({ pfA with _parsed := false } : ParsedFile)._parsed = false :=
  c7_read_failure (fun _ => none) false pfA { pfA with _parsed := false }
    (by decide)

/-- Claim C8: with cache reuse requested, parseData is idempotent — the
second run changes nothing, so the candidate list equals the one the first
tokenization produced — and when the parsed flag is already set the call is
a pure cache hit returning the document unchanged. -/
theorem c8_parse_idempotent (tagMatcher wikiMatcher : LineMatcher)
    (pf : ParsedFile) :
    ParsedFile.parseData tagMatcher wikiMatcher true
        (ParsedFile.parseData tagMatcher wikiMatcher true pf)
      = ParsedFile.parseData tagMatcher wikiMatcher true pf
    ∧ (pf._parsed = true →
        ParsedFile.parseData tagMatcher wikiMatcher true pf = pf) := by
  have cacheHit : ∀ q : ParsedFile, q._parsed = true →
      ParsedFile.parseData tagMatcher wikiMatcher true q = q := by
    intro q hq
    unfold ParsedFile.parseData
    split
    · rfl
    · split
      · rfl
      · rw [hq]
        simp
  refine ⟨?_, cacheHit pf⟩
  by_cases h0 : pf.data = some ""
  · have e : ParsedFile.parseData tagMatcher wikiMatcher true pf = pf := by
      unfold ParsedFile.parseData
      rw [if_pos h0]
    rw [e, e]
  · cases hd : pf.data with
    | none =>
      have e : ParsedFile.parseData tagMatcher wikiMatcher true pf = pf := by
        unfold ParsedFile.parseData
        rw [if_neg h0, hd]
      rw [e, e]
    | some d =>
      by_cases hp : pf._parsed = true
      · rw [cacheHit pf hp]
        exact cacheHit pf hp
      · have hpf : pf._parsed = false := by
          simpa using hp
        have e : ParsedFile.parseData tagMatcher wikiMatcher true pf
            = { pf with
                refCandidates :=
                  (splitLines d).enum.flatMap (fun p =>
                    (tagMatcher p.2).map
                      (fun m => RefCandidate.fromMatch p.1 m ContextWordType.Tag)
                    ++ (wikiMatcher p.2).map
                      (fun m =>
                        RefCandidate.fromMatch p.1 m ContextWordType.WikiLink)),
                _parsed := true } :=
          c6_tokenize_order tagMatcher wikiMatcher true pf d hd
            (by intro he; exact h0 (hd.trans (by rw [he]))) (Or.inr hpf)
        rw [e]
        exact cacheHit _ rfl

/-- Witness for C8: re-tokenizing the already parsed concrete document with
the cache is a no-op. -/
theorem c8_parse_idempotent_witness :
    ParsedFile.parseData tagM0 wikiM0 true pfA = pfA :=
  (c8_parse_idempotent tagM0 wikiM0 pfA).2 (by decide)

/-- Claim C9: a document's tagSet lists each distinct raw tag text exactly
once however often it occurs among the candidates, and the engine's
distinctTags is exactly the deduplicated union of the per-document tag sets
of the loaded workspace. -/
theorem c9_distinct_tags (pf : ParsedFile)
    (tagMatcher wikiMatcher : LineMatcher) (fs : String → Option String)
    (cache : Cache) (paths : List String) (pfs : List ParsedFile)
    (cache' : Cache)
    (h : NoteParser.parsedFilesForWorkspace tagMatcher wikiMatcher fs true
          cache paths = some (pfs, cache')) :
    pf.tagSet.Nodup
    ∧ (∀ t, t ∈ pf.tagSet ↔
        ∃ c, c ∈ pf.refCandidates ∧ c.contextWordType = ContextWordType.Tag ∧
          c.rawText = t)
    ∧ NoteParser.distinctTags tagMatcher wikiMatcher fs cache paths
        = some (dedupKeepFirst (pfs.flatMap ParsedFile.tagSet))
    ∧ (dedupKeepFirst (pfs.flatMap ParsedFile.tagSet)).Nodup
    ∧ (∀ t, t ∈ dedupKeepFirst (pfs.flatMap ParsedFile.tagSet) ↔
        ∃ q, q ∈ pfs ∧ t ∈ q.tagSet) := by
  refine ⟨dedupKeepFirst_nodup _, tagSet_mem_iff pf, ?_, dedupKeepFirst_nodup _, ?_⟩
  · unfold NoteParser.distinctTags
    rw [h]
    rfl
  · intro t
    rw [mem_dedupKeepFirst]
    simp [List.mem_flatMap]

/-- The two-document workspace of the deduplication scenario. -/
def fsAB : String → Option String := fun p =>
  if p = "a.md" then some "#a #a #b"
  else if p = "b.md" then some "#b #c"
  else none

/-- The first workspace document, loaded and parsed. -/
def pfA2 : ParsedFile :=
  { fsPath := "a.md", data := some "#a #a #b",
    refCandidates :=
      [ { rawText := "#a",
          range := { start := { line := 0, character := 0 },
                     «end» := { line := 0, character := 2 } },
          contextWordType := ContextWordType.Tag },
        { rawText := "#a",
          range := { start := { line := 0, character := 3 },
                     «end» := { line := 0, character := 5 } },
          contextWordType := ContextWordType.Tag },
        { rawText := "#b",
          range := { start := { line := 0, character := 6 },
                     «end» := { line := 0, character := 8 } },
          contextWordType := ContextWordType.Tag } ],
    _parsed := true }

/-- The second workspace document, loaded and parsed. -/
def pfB2 : ParsedFile :=
  { fsPath := "b.md", data := some "#b #c",
    refCandidates :=
      [ { rawText := "#b",
          range := { start := { line := 0, character := 0 },
                     «end» := { line := 0, character := 2 } },
          contextWordType := ContextWordType.Tag },
        { rawText := "#c",
          range := { start := { line := 0, character := 3 },
                     «end» := { line := 0, character := 5 } },
          contextWordType := ContextWordType.Tag } ],
    _parsed := true }

/-- Witness for C9, the spec's scenario: documents with the tag lines
hash-a hash-a hash-b and hash-b hash-c yield exactly the three distinct
tags. -/
theorem c9_distinct_tags_witness :
    NoteParser.distinctTags tagM0 wikiM0 fsAB [] ["a.md", "b.md"]
      = some ["#a", "#b", "#c"] := by
  rw [(c9_distinct_tags pfA2 tagM0 wikiM0 fsAB [] ["a.md", "b.md"]
    [pfA2, pfB2] [("a.md", pfA2), ("b.md", pfB2)] (by decide)).2.2.1]
  decide

/-- Claim C10: tagSet never consults the document's content or parsed flag —
overwriting both arbitrarily (undefined content included) leaves it
unchanged — and it reports exactly the raw texts of the Tag-kind candidates
currently stored. -/
theorem c10_tagSet_frame (pf : ParsedFile) (d : Option String) (b : Bool) :
    ParsedFile.tagSet { pf with data := d, _parsed := b } = pf.tagSet
    ∧ (∀ t, t ∈ pf.tagSet ↔
        ∃ c, c ∈ pf.refCandidates ∧ c.contextWordType = ContextWordType.Tag ∧
          c.rawText = t) :=
  ⟨rfl, tagSet_mem_iff pf⟩

/-- Witness for C10: the emptied concrete document still reports the tag
parsed from its earlier content. -/
theorem c10_tagSet_frame_witness :
    ParsedFile.tagSet { pfA with data := some "", _parsed := false }
      = pfA.tagSet :=
  (c10_tagSet_frame pfA (some "") false).1
